import Mathlib

set_option maxRecDepth 40000

/-
Shallow embedding of the OpenSprinkler irrigation-engine core
(src/main.cpp, src/OpenSprinkler.cpp, src/utils.cpp), together with
theorems settling the specification claims about it.

Machine integers are modelled as Nat/Int; `unsigned long` arithmetic is
taken modulo 2^64 where the source relies on it.
-/

namespace OS

/-- `#define MAX_EXT_BOARDS 24` (defines.h). -/
def MAX_EXT_BOARDS : Nat := 24

/-- `#define MAX_NUM_BOARDS (1 + MAX_EXT_BOARDS)` (defines.h). -/
def MAX_NUM_BOARDS : Nat := 1 + MAX_EXT_BOARDS

/-- `#define MAX_NUM_STATIONS (MAX_NUM_BOARDS * 8)` (defines.h). -/
def MAX_NUM_STATIONS : Nat := MAX_NUM_BOARDS * 8

/-- `#define MAX_SOPTS_SIZE 160` (defines.h). -/
def MAX_SOPTS_SIZE : Nat := 160

/-- Modulus of C `unsigned long` on the 64-bit Linux targets of this firmware. -/
def U64 : Nat := 2 ^ 64

/-- `unsigned long` addition of a signed value (C integer conversion: the
signed addend is converted to `unsigned long`, i.e. the sum is reduced
modulo 2^64). -/
def uaddInt (a : Nat) (b : Int) : Nat := (((a : Int) + b) % (U64 : Int)).toNat

/-- `unsigned long` addition of two unsigned values. -/
def uadd (a b : Nat) : Nat := (a + b) % U64

/-- `unsigned long` subtraction (wraps modulo 2^64). -/
def usub (a b : Nat) : Nat := (((a : Int) - (b : Int)) % (U64 : Int)).toNat

/-! ## utils.cpp: water-time encode/decode/resolve -/

/-- `water_time_decode_signed` (utils.cpp): clamp the byte to 240 and
return `((int16_t)i - 120) * 5`. -/
def water_time_decode_signed (i : Nat) : Int :=
  (((min i 240 : Nat) : Int) - 120) * 5

/-- `water_time_encode_signed` (utils.cpp): clamp to [-600, 600] and
return `(i + 600) / 5` (the dividend is non-negative, so C truncating
division agrees with Nat division after `toNat`). -/
def water_time_encode_signed (i : Int) : Nat :=
  let i1 : Int := if i > 600 then 600 else i
  let i2 : Int := if i1 < -600 then -600 else i1
  (i2 + 600).toNat / 5

/-- `water_time_resolve` (utils.cpp): sentinels 65534/65535 resolve to
sun-relative durations from the cached non-volatile sunrise/sunset
minutes; the `int` subtraction result is converted to the `ulong`
return type (modulo 2^64). -/
def water_time_resolve (sunrise_time sunset_time : Nat) (v : Nat) : Nat :=
  if v = 65534 then
    ((((sunset_time : Int) - (sunrise_time : Int)) * 60) % (U64 : Int)).toNat
  else if v = 65535 then
    ((((sunrise_time : Int) + 1440 - (sunset_time : Int)) * 60) % (U64 : Int)).toNat
  else v

/-! ## Runtime queue and scheduler (main.cpp) -/

/-- `RuntimeQueueStruct`: one runtime-queue element
`{start time, duration, station id, program id}`. -/
structure RuntimeQueueStruct where
  st : Nat
  dur : Nat
  sid : Nat
  pid : Nat
  deriving Repr, DecidableEq

/-- Board byte of a station: `sid >> 3`. -/
def bidOf (sid : Nat) : Nat := sid >>> 3

/-- Bit of a station within its board byte: `sid & 0x07`. -/
def sOf (sid : Nat) : Nat := sid &&& 7

/-- Test of a per-board attribute byte array at a station:
`attrib[bid] & (1 << s)` (source idiom for `attrib_seq`, `attrib_dis`,
`attrib_igs`, ...). `attrib` maps a board index to its byte. -/
def attribGet (attrib : Nat → Nat) (sid : Nat) : Bool :=
  attrib (bidOf sid) &&& (1 <<< sOf sid) ≠ 0

/-- The loop body of `schedule_all_stations` (main.cpp lines 823-870):
walk the queue in order threading the running sequential and concurrent
start times.  An element is skipped when `q->st` is nonzero or `q->dur`
is zero; a sequential-attribute station (when not in remote-extension
mode) receives the running sequential time, which then advances by
`q->dur` and by `station_delay` (two `unsigned long` additions, the
second of a signed value); any other element receives the running
concurrent time, which then advances by 1. -/
def schedule_go (delay : Int) (re : Nat) (attrib_seq : Nat → Nat) :
    List RuntimeQueueStruct → Nat → Nat → List RuntimeQueueStruct
  | [], _, _ => []
  | q :: rest, seqS, conS =>
    if q.st ≠ 0 then q :: schedule_go delay re attrib_seq rest seqS conS
    else if q.dur = 0 then q :: schedule_go delay re attrib_seq rest seqS conS
    else if attribGet attrib_seq q.sid ∧ re = 0 then
      { q with st := seqS } ::
        schedule_go delay re attrib_seq rest (uaddInt (uadd seqS q.dur) delay) conS
    else
      { q with st := conS } :: schedule_go delay re attrib_seq rest seqS (uadd conS 1)

/-- The scheduler state that `schedule_all_stations` reads: the runtime
queue and `pd.last_seq_stop_time`. -/
structure SchedState where
  queue : List RuntimeQueueStruct
  last_seq_stop_time : Nat
  deriving Repr, DecidableEq

/-- `schedule_all_stations(curr_time)` (main.cpp lines 812-871):
`con_start_time = curr_time + 1`; `seq_start_time` starts equal to it
and is replaced by `last_seq_stop_time + station_delay` exactly when
`last_seq_stop_time > curr_time`; then the queue is walked by
`schedule_go`.  `station_delay` is `water_time_decode_signed` of the
`IOPT_STATION_DELAY_TIME` option byte, `re` is `IOPT_REMOTE_EXT_MODE`. -/
def schedule_all_stations (iopt_station_delay re : Nat) (attrib_seq : Nat → Nat)
    (s : SchedState) (curr_time : Nat) : SchedState :=
  let con_start := uadd curr_time 1
  let delay := water_time_decode_signed iopt_station_delay
  let seq_start :=
    if s.last_seq_stop_time > curr_time then uaddInt s.last_seq_stop_time delay
    else con_start
  { s with queue := schedule_go delay re attrib_seq s.queue seq_start con_start }

/-- The scheduler loop as worded by the claims: identical walk, but with
ideal (unbounded) integer arithmetic on the running start times.  Used
as the specification side of the refinement theorems for the scheduler
claims. -/
def spec_go (delay : Int) (re : Nat) (attrib_seq : Nat → Nat) :
    List RuntimeQueueStruct → Int → Int → List RuntimeQueueStruct
  | [], _, _ => []
  | q :: rest, seqS, conS =>
    if q.st ≠ 0 then q :: spec_go delay re attrib_seq rest seqS conS
    else if q.dur = 0 then q :: spec_go delay re attrib_seq rest seqS conS
    else if attribGet attrib_seq q.sid ∧ re = 0 then
      { q with st := seqS.toNat } ::
        spec_go delay re attrib_seq rest (seqS + q.dur + delay) conS
    else
      { q with st := conS.toNat } :: spec_go delay re attrib_seq rest seqS (conS + 1)

/-- Claim C1's wording of `schedule_all_stations`: `seq_start` is
initialised to `max(now+1, last_seq_stop_time + station_delay)`,
`con_start` to `now+1`. -/
def claim_schedule (iopt_station_delay re : Nat) (attrib_seq : Nat → Nat)
    (s : SchedState) (curr_time : Nat) : SchedState :=
  let con0 : Int := (curr_time : Int) + 1
  let delay := water_time_decode_signed iopt_station_delay
  let seq0 : Int := max con0 ((s.last_seq_stop_time : Int) + delay)
  { s with queue := spec_go delay re attrib_seq s.queue seq0 con0 }

/-- The amended wording of `schedule_all_stations`: `seq_start` is
initialised to `last_seq_stop_time + station_delay` when
`last_seq_stop_time > now`, and to `now+1` otherwise. -/
def amended_schedule (iopt_station_delay re : Nat) (attrib_seq : Nat → Nat)
    (s : SchedState) (curr_time : Nat) : SchedState :=
  let con0 : Int := (curr_time : Int) + 1
  let delay := water_time_decode_signed iopt_station_delay
  let seq0 : Int :=
    if s.last_seq_stop_time > curr_time then (s.last_seq_stop_time : Int) + delay
    else con0
  { s with queue := spec_go delay re attrib_seq s.queue seq0 con0 }

/-- Total duration of a queue segment. -/
def durSum (Q : List RuntimeQueueStruct) : Nat := (Q.map RuntimeQueueStruct.dur).sum

/-- The decoded station delay always lies in [-600, 600]. -/
theorem water_time_decode_signed_bounds (i : Nat) :
    -600 ≤ water_time_decode_signed i ∧ water_time_decode_signed i ≤ 600 := by
  unfold water_time_decode_signed
  omega

/-- The modular loop of the source equals the ideal-arithmetic loop of
the spec as long as the running start times stay inside `[0, 2^64)`,
which the stated bounds guarantee. -/
theorem schedule_go_eq_spec_go (delay : Int) (re : Nat) (attrib_seq : Nat → Nat)
    (hd1 : -600 ≤ delay) (hd2 : delay ≤ 600) :
    ∀ (Q : List RuntimeQueueStruct) (s c : Nat),
      600 * Q.length ≤ s →
      s + durSum Q + 600 * Q.length < U64 →
      c + Q.length < U64 →
      schedule_go delay re attrib_seq Q s c =
        spec_go delay re attrib_seq Q (s : Int) (c : Int)
  | [], s, c, _, _, _ => rfl
  | q :: rest, s, c, hlo, hup, hc => by
    have hlen : (q :: rest).length = rest.length + 1 := rfl
    have hdur : durSum (q :: rest) = q.dur + durSum rest := by
      simp [durSum]
    rw [schedule_go, spec_go]
    by_cases h1 : q.st ≠ 0
    · rw [if_pos h1, if_pos h1,
        schedule_go_eq_spec_go delay re attrib_seq hd1 hd2 rest s c
          (by omega) (by omega) (by omega)]
    · rw [if_neg h1, if_neg h1]
      by_cases h2 : q.dur = 0
      · rw [if_pos h2, if_pos h2,
          schedule_go_eq_spec_go delay re attrib_seq hd1 hd2 rest s c
            (by omega) (by omega) (by omega)]
      · rw [if_neg h2, if_neg h2]
        by_cases h3 : attribGet attrib_seq q.sid ∧ re = 0
        · rw [if_pos h3, if_pos h3]
          have hsd : uadd s q.dur = s + q.dur := by
            unfold uadd; rw [Nat.mod_eq_of_lt (by omega)]
          have hnext : uaddInt (uadd s q.dur) delay =
              (((s : Int) + q.dur + delay)).toNat := by
            rw [hsd]
            unfold uaddInt
            rw [Int.emod_eq_of_lt (by push_cast; omega) (by push_cast; omega)]
            push_cast
            ring_nf
          have hcast : (((((s : Int) + q.dur + delay)).toNat : Int)) =
              (s : Int) + q.dur + delay := by
            rw [Int.toNat_of_nonneg (by omega)]
          rw [hnext,
            schedule_go_eq_spec_go delay re attrib_seq hd1 hd2 rest _ c
              (by omega) (by omega) (by omega), hcast]
          simp
        · rw [if_neg h3, if_neg h3]
          have hc1 : uadd c 1 = c + 1 := by
            unfold uadd; rw [Nat.mod_eq_of_lt (by omega)]
          rw [hc1,
            schedule_go_eq_spec_go delay re attrib_seq hd1 hd2 rest s (c + 1)
              (by omega) (by omega) (by omega)]
          simp

end OS

namespace OS

/-! ## Claim C1: start-time assignment in schedule_all_stations -/

/-- C1 as stated is false.  With station-delay byte 121 (decoded +5),
`last_seq_stop_time = now = 100` and one unscheduled sequential entry,
the code takes the `else` branch (`last_seq_stop_time > now` fails) and
assigns start 101 = now+1, while the claimed initialisation
`max(now+1, last_seq_stop_time + station_delay)` prescribes 105. -/
theorem c1_schedule_cex :
    (schedule_all_stations 121 0 (fun _ => 255)
        ⟨[⟨0, 30, 0, 1⟩], 100⟩ 100).queue.map RuntimeQueueStruct.st = [101] ∧
    (claim_schedule 121 0 (fun _ => 255)
        ⟨[⟨0, 30, 0, 1⟩], 100⟩ 100).queue.map RuntimeQueueStruct.st = [105] ∧
    schedule_all_stations 121 0 (fun _ => 255) ⟨[⟨0, 30, 0, 1⟩], 100⟩ 100 ≠
      claim_schedule 121 0 (fun _ => 255) ⟨[⟨0, 30, 0, 1⟩], 100⟩ 100 := by
  refine ⟨by decide, by decide, by decide⟩

/-- C1 (amended): each runtime-queue entry with start_time 0 and nonzero
duration is assigned a start in insertion order — a sequential-attribute
station (when remote_extension_mode = 0) receives the running seq_start,
which advances by its duration plus station_delay, every other such
entry receives the running con_start, which advances by 1; entries with
nonzero start or zero duration are unchanged; con_start is initialised
to now+1 and seq_start to last_seq_stop_time + station_delay when
last_seq_stop_time > now, else to now+1.  Stated as equality with the
ideal-arithmetic rendition of that description, under bounds keeping
the 64-bit arithmetic exact. -/
theorem c1_schedule_amended (d re : Nat) (attrib_seq : Nat → Nat)
    (s : SchedState) (t : Nat)
    (h1 : 600 * (s.queue.length + 1) ≤ t)
    (h2 : t + s.last_seq_stop_time + durSum s.queue + 600 * s.queue.length + 601 < U64) :
    schedule_all_stations d re attrib_seq s t = amended_schedule d re attrib_seq s t := by
  obtain ⟨hd1, hd2⟩ := water_time_decode_signed_bounds d
  simp only [schedule_all_stations, amended_schedule]
  congr 1
  have hcon : uadd t 1 = t + 1 := Nat.mod_eq_of_lt (by omega)
  by_cases hlt : s.last_seq_stop_time > t
  · rw [if_pos hlt, if_pos hlt]
    have hseq : uaddInt s.last_seq_stop_time (water_time_decode_signed d) =
        ((s.last_seq_stop_time : Int) + water_time_decode_signed d).toNat := by
      unfold uaddInt
      rw [Int.emod_eq_of_lt (by omega) (by omega)]
    rw [hseq, hcon,
      schedule_go_eq_spec_go _ _ _ hd1 hd2 _ _ _ (by omega) (by omega) (by omega),
      Int.toNat_of_nonneg (by omega)]
    push_cast
    rfl
  · rw [if_neg hlt, if_neg hlt, hcon,
      schedule_go_eq_spec_go _ _ _ hd1 hd2 _ _ _ (by omega) (by omega) (by omega)]
    push_cast
    rfl

/-- Witness for C1 at a realistic input: one sequential entry of 30 s,
empty chain, now = 1700000000, station-delay byte 121. -/
theorem c1_schedule_amended_witness :
    schedule_all_stations 121 0 (fun _ => 255) ⟨[⟨0, 30, 5, 1⟩], 0⟩ 1700000000 =
      amended_schedule 121 0 (fun _ => 255) ⟨[⟨0, 30, 5, 1⟩], 0⟩ 1700000000 :=
  c1_schedule_amended 121 0 (fun _ => 255) ⟨[⟨0, 30, 5, 1⟩], 0⟩ 1700000000
    (by decide) (by decide)

/-! ## Claim C2: disjointness of sequential intervals in one pass -/

/-- The `(start_time, duration)` intervals that one scheduling pass
assigns to sequential-attribute stations: walk the input queue and the
scheduler's output in step and keep the entries the pass schedules
sequentially (start 0, nonzero duration, sequential attribute, not in
remote-extension mode). -/
def seqIntervals (re : Nat) (attrib_seq : Nat → Nat)
    (input output : List RuntimeQueueStruct) : List (Nat × Nat) :=
  (input.zip output).filterMap (fun p =>
    if p.1.st = 0 ∧ p.1.dur ≠ 0 ∧ attribGet attrib_seq p.1.sid ∧ re = 0 then
      some (p.2.st, p.2.dur)
    else none)

/-- With a non-negative station delay and no 64-bit wraparound, the
sequential intervals produced by the scheduler loop are chained: each
interval starts at least `delay` after the previous one ends, and all
of them start no earlier than the running sequential time. -/
theorem seqIntervals_chain (delay : Int) (re : Nat) (attrib_seq : Nat → Nat)
    (hd0 : 0 ≤ delay) (hd2 : delay ≤ 600) :
    ∀ (Q : List RuntimeQueueStruct) (s c : Nat),
      s + durSum Q + 600 * Q.length < U64 →
      (∀ p ∈ seqIntervals re attrib_seq Q (schedule_go delay re attrib_seq Q s c),
        s ≤ p.1) ∧
      List.Pairwise (fun a b => a.1 + a.2 + delay.toNat ≤ b.1)
        (seqIntervals re attrib_seq Q (schedule_go delay re attrib_seq Q s c))
  | [], s, c, _ => by simp [seqIntervals, schedule_go]
  | q :: rest, s, c, hup => by
    have hdur : durSum (q :: rest) = q.dur + durSum rest := by simp [durSum]
    have hlen : (q :: rest).length = rest.length + 1 := rfl
    rw [schedule_go]
    by_cases h1 : q.st ≠ 0
    · rw [if_pos h1]
      have hskip : seqIntervals re attrib_seq (q :: rest)
          (q :: schedule_go delay re attrib_seq rest s c) =
          seqIntervals re attrib_seq rest (schedule_go delay re attrib_seq rest s c) := by
        simp [seqIntervals, List.zip, h1]
      rw [hskip]
      exact seqIntervals_chain delay re attrib_seq hd0 hd2 rest s c (by omega)
    · rw [if_neg h1]
      push_neg at h1
      by_cases h2 : q.dur = 0
      · rw [if_pos h2]
        have hskip : seqIntervals re attrib_seq (q :: rest)
            (q :: schedule_go delay re attrib_seq rest s c) =
            seqIntervals re attrib_seq rest (schedule_go delay re attrib_seq rest s c) := by
          simp [seqIntervals, List.zip, h2]
        rw [hskip]
        exact seqIntervals_chain delay re attrib_seq hd0 hd2 rest s c (by omega)
      · rw [if_neg h2]
        by_cases h3 : attribGet attrib_seq q.sid ∧ re = 0
        · rw [if_pos h3]
          have hnext : uaddInt (uadd s q.dur) delay = s + q.dur + delay.toNat := by
            have hsd : uadd s q.dur = s + q.dur := Nat.mod_eq_of_lt (by omega)
            rw [hsd]
            unfold uaddInt
            rw [Int.emod_eq_of_lt (by omega) (by omega)]
            omega
          have hcons : seqIntervals re attrib_seq (q :: rest)
              ({ q with st := s } ::
                schedule_go delay re attrib_seq rest (uaddInt (uadd s q.dur) delay) c) =
              (s, q.dur) :: seqIntervals re attrib_seq rest
                (schedule_go delay re attrib_seq rest (uaddInt (uadd s q.dur) delay) c) := by
            simp [seqIntervals, List.zip, h1, h2, h3.1, h3.2]
          rw [hcons, hnext]
          obtain ⟨ih1, ih2⟩ := seqIntervals_chain delay re attrib_seq hd0 hd2 rest
            (s + q.dur + delay.toNat) c (by omega)
          refine ⟨?_, ?_⟩
          · intro p hp
            rcases List.mem_cons.mp hp with rfl | h
            · simp
            · have := ih1 p h
              omega
          · refine List.Pairwise.cons ?_ ih2
            intro p hp
            have := ih1 p hp
            show s + q.dur + delay.toNat ≤ p.1
            omega
        · rw [if_neg h3]
          have hskip : seqIntervals re attrib_seq (q :: rest)
              ({ q with st := c } ::
                schedule_go delay re attrib_seq rest s (uadd c 1)) =
              seqIntervals re attrib_seq rest
                (schedule_go delay re attrib_seq rest s (uadd c 1)) := by
            rcases Decidable.not_and_iff_or_not.mp h3 with h | h <;>
              simp [seqIntervals, List.zip, h1, h2, h]
          rw [hskip]
          exact seqIntervals_chain delay re attrib_seq hd0 hd2 rest s (uadd c 1) (by omega)

/-- C2 as stated is false for negative station delays.  With
station-delay byte 119 (decoded −5) and two sequential 30-second
entries scheduled in one pass at now = 100, the assigned intervals are
[101, 131) and [126, 156), which overlap. -/
theorem c2_seq_disjoint_cex :
    (schedule_all_stations 119 0 (fun _ => 255)
        ⟨[⟨0, 30, 0, 1⟩, ⟨0, 30, 1, 1⟩], 0⟩ 100).queue.map RuntimeQueueStruct.st =
      [101, 126] ∧
    water_time_decode_signed 119 = -5 ∧
    (-600 : Int) ≤ -5 ∧ (-5 : Int) ≤ 600 ∧
    ¬(101 + 30 ≤ 126 ∨ 126 + 30 ≤ 101) := by
  refine ⟨by decide, by decide, by decide, by decide, by decide⟩

/-- C2 (amended): when the decoded station delay is non-negative (option
byte ≥ 120), the intervals `[start, start+duration)` assigned to
sequential-attribute stations in one `schedule_all_stations` pass are
pairwise disjoint and successive ones are separated by at least the
station delay; for negative delays successive sequential intervals can
overlap (see the counterexample).  Bounds keep the 64-bit arithmetic
exact. -/
theorem c2_seq_disjoint (d re : Nat) (attrib_seq : Nat → Nat)
    (s : SchedState) (t : Nat)
    (hd : 120 ≤ d)
    (h2 : t + s.last_seq_stop_time + durSum s.queue + 600 * s.queue.length + 601 < U64) :
    List.Pairwise
      (fun a b => (a.1 + a.2 ≤ b.1 ∨ b.1 + b.2 ≤ a.1) ∧
        a.1 + a.2 + (water_time_decode_signed d).toNat ≤ b.1)
      (seqIntervals re attrib_seq s.queue
        (schedule_all_stations d re attrib_seq s t).queue) := by
  obtain ⟨hd1, hd2⟩ := water_time_decode_signed_bounds d
  have hd0 : 0 ≤ water_time_decode_signed d := by
    unfold water_time_decode_signed
    omega
  have key : ∀ (s0 c0 : Nat),
      s0 + durSum s.queue + 600 * s.queue.length < U64 →
      List.Pairwise (fun a b => a.1 + a.2 + (water_time_decode_signed d).toNat ≤ b.1)
        (seqIntervals re attrib_seq s.queue
          (schedule_go (water_time_decode_signed d) re attrib_seq s.queue s0 c0)) :=
    fun s0 c0 h => (seqIntervals_chain _ re attrib_seq hd0 hd2 s.queue s0 c0 h).2
  have hmain : List.Pairwise
      (fun a b => a.1 + a.2 + (water_time_decode_signed d).toNat ≤ b.1)
      (seqIntervals re attrib_seq s.queue
        (schedule_all_stations d re attrib_seq s t).queue) := by
    simp only [schedule_all_stations]
    by_cases hlt : s.last_seq_stop_time > t
    · rw [if_pos hlt]
      refine key _ _ ?_
      have : uaddInt s.last_seq_stop_time (water_time_decode_signed d) =
          ((s.last_seq_stop_time : Int) + water_time_decode_signed d).toNat := by
        unfold uaddInt
        rw [Int.emod_eq_of_lt (by omega) (by omega)]
      rw [this]
      omega
    · rw [if_neg hlt]
      refine key _ _ ?_
      have : uadd t 1 = t + 1 := Nat.mod_eq_of_lt (by omega)
      rw [this]
      omega
  refine hmain.imp ?_
  intro a b h
  exact ⟨Or.inl (by omega), h⟩

/-- Witness for C2: two sequential 30-second entries, delay byte 121
(+5 s), now = 1700000000. -/
theorem c2_seq_disjoint_witness :
    List.Pairwise
      (fun a b => (a.1 + a.2 ≤ b.1 ∨ b.1 + b.2 ≤ a.1) ∧
        a.1 + a.2 + (water_time_decode_signed 121).toNat ≤ b.1)
      (seqIntervals 0 (fun _ => 255) [⟨0, 30, 0, 1⟩, ⟨0, 30, 1, 1⟩]
        (schedule_all_stations 121 0 (fun _ => 255)
          ⟨[⟨0, 30, 0, 1⟩, ⟨0, 30, 1, 1⟩], 0⟩ 1700000000).queue) :=
  c2_seq_disjoint 121 0 (fun _ => 255) ⟨[⟨0, 30, 0, 1⟩, ⟨0, 30, 1, 1⟩], 0⟩
    1700000000 (by decide) (by decide)

/-! ## Claim C6: idempotence of schedule_all_stations -/

/-- When every queue element already has a nonzero start or a zero
duration, the scheduler loop leaves the queue untouched. -/
theorem schedule_go_skip_all (delay : Int) (re : Nat) (attrib_seq : Nat → Nat) :
    ∀ (Q : List RuntimeQueueStruct) (s c : Nat),
      (∀ q ∈ Q, q.st ≠ 0 ∨ q.dur = 0) →
      schedule_go delay re attrib_seq Q s c = Q
  | [], _, _, _ => rfl
  | q :: rest, s, c, h => by
    rw [schedule_go]
    rcases h q (List.mem_cons_self q rest) with h1 | h1
    · rw [if_pos h1, schedule_go_skip_all delay re attrib_seq rest s c
        (fun p hp => h p (List.mem_cons_of_mem q hp))]
    · by_cases h0 : q.st ≠ 0
      · rw [if_pos h0, schedule_go_skip_all delay re attrib_seq rest s c
          (fun p hp => h p (List.mem_cons_of_mem q hp))]
      · rw [if_neg h0, if_pos h1, schedule_go_skip_all delay re attrib_seq rest s c
          (fun p hp => h p (List.mem_cons_of_mem q hp))]

/-- C6 as stated is false.  With station-delay byte 119 (decoded −5),
`last_seq_stop_time = 5` and a first call at time 3, the sequential
start computes to `5 + (−5) = 0` in unsigned arithmetic, so the entry is
left with start_time 0; a second call at time 100 then reassigns it to
101. -/
theorem c6_idempotent_cex :
    (schedule_all_stations 119 0 (fun _ => 255)
        ⟨[⟨0, 10, 0, 1⟩], 5⟩ 3).queue.map RuntimeQueueStruct.st = [0] ∧
    (schedule_all_stations 119 0 (fun _ => 255)
        (schedule_all_stations 119 0 (fun _ => 255) ⟨[⟨0, 10, 0, 1⟩], 5⟩ 3)
        100).queue.map RuntimeQueueStruct.st = [101] ∧
    (schedule_all_stations 119 0 (fun _ => 255)
        (schedule_all_stations 119 0 (fun _ => 255) ⟨[⟨0, 10, 0, 1⟩], 5⟩ 3)
        100).queue.map RuntimeQueueStruct.st ≠
      (schedule_all_stations 119 0 (fun _ => 255)
        ⟨[⟨0, 10, 0, 1⟩], 5⟩ 3).queue.map RuntimeQueueStruct.st := by
  refine ⟨by decide, by decide, by decide⟩

/-- C6 (amended): `schedule_all_stations` is idempotent provided the
first call leaves no element with start_time 0 and nonzero duration
(which can fail only when the 64-bit sequential start computation wraps
to exactly 0): a second call at any time, with no new entries added in
between, leaves every entry's start_time unchanged. -/
theorem c6_idempotent (d re : Nat) (attrib_seq : Nat → Nat)
    (s : SchedState) (t1 t2 : Nat)
    (h : ∀ q ∈ (schedule_all_stations d re attrib_seq s t1).queue,
      q.st ≠ 0 ∨ q.dur = 0) :
    (schedule_all_stations d re attrib_seq
        (schedule_all_stations d re attrib_seq s t1) t2).queue.map
      RuntimeQueueStruct.st =
      (schedule_all_stations d re attrib_seq s t1).queue.map
        RuntimeQueueStruct.st := by
  have : (schedule_all_stations d re attrib_seq
      (schedule_all_stations d re attrib_seq s t1) t2).queue =
      (schedule_all_stations d re attrib_seq s t1).queue := by
    simp only [schedule_all_stations]
    exact schedule_go_skip_all _ _ _ _ _ _ h
  rw [this]

/-- Witness for C6: one entry of 30 s scheduled at time 1000, second
call at time 50. -/
theorem c6_idempotent_witness :
    (schedule_all_stations 121 0 (fun _ => 255)
        (schedule_all_stations 121 0 (fun _ => 255) ⟨[⟨0, 30, 0, 1⟩], 0⟩ 1000)
        50).queue.map RuntimeQueueStruct.st =
      (schedule_all_stations 121 0 (fun _ => 255)
        ⟨[⟨0, 30, 0, 1⟩], 0⟩ 1000).queue.map RuntimeQueueStruct.st :=
  c6_idempotent 121 0 (fun _ => 255) ⟨[⟨0, 30, 0, 1⟩], 0⟩ 1000 50 (by decide)

/-! ## Claims C3, C4: station bits and RF stations (OpenSprinkler.cpp) -/

/-- `set_station_bit(sid, value)` (OpenSprinkler.cpp lines 752-773):
flip one bit of the `station_bits` byte array and report
0 = unchanged, 1 = set, 255 = cleared.  The byte accessed is
`station_bits[sid >> 3]` with mask `1 << (sid & 0x07)`; the C `~mask`
on a byte is `255 ^ mask`.  The model reads a missing index as 0 and
`List.set` drops an out-of-range write; `bidOf sid` names the index the
C code dereferences, so out-of-range accesses are stated through it. -/
def set_station_bit (bits : List Nat) (sid value : Nat) : List Nat × Nat :=
  let idx := bidOf sid
  let mask := 1 <<< sOf sid
  let cur := bits.getD idx 0
  if value ≠ 0 then
    if cur &&& mask ≠ 0 then (bits, 0)
    else (bits.set idx (cur ||| mask), 1)
  else
    if cur &&& mask = 0 then (bits, 0)
    else (bits.set idx (cur &&& (255 ^^^ mask)), 255)

/-- The station indices iterated by `clear_all_station_bits`
(OpenSprinkler.cpp lines 776-783):
`for (sid = 0; sid <= MAX_NUM_STATIONS; sid++)`. -/
def clear_all_station_bits_sids : List Nat := List.range (MAX_NUM_STATIONS + 1)

/-- `clear_all_station_bits()`: invoke `set_station_bit(sid, 0)` for each
iterated station index. -/
def clear_all_station_bits (bits : List Nat) : List Nat :=
  clear_all_station_bits_sids.foldl (fun b sid => (set_station_bit b sid 0).1) bits

/-- C3: evaluation of the code at the failing input.  The loop of
`clear_all_station_bits` runs over `0..=MAX_NUM_STATIONS` — 201 indices,
one more than the claimed `[0, MAX_NUM_STATIONS)` — and its final call
`set_station_bit(200, 0)` dereferences `station_bits[25]`, which is not
an index of the `MAX_NUM_BOARDS = 25`-byte array. -/
theorem c3_clear_all_oob :
    clear_all_station_bits_sids.length = MAX_NUM_STATIONS + 1 ∧
    MAX_NUM_STATIONS ∈ clear_all_station_bits_sids ∧
    bidOf MAX_NUM_STATIONS = MAX_NUM_BOARDS ∧
    ¬bidOf MAX_NUM_STATIONS < MAX_NUM_BOARDS ∧
    clear_all_station_bits_sids ≠ List.range MAX_NUM_STATIONS := by
  refine ⟨by decide, by decide, by decide, by decide, by decide⟩

/-- `hex2ulong` inner loop (OpenSprinkler.cpp lines 530-556): shift the
accumulator by one hex digit per character; a non-hex character aborts
with 0.  Characters are byte values ('0' = 48, 'A' = 65, 'a' = 97);
arithmetic is `unsigned long`. -/
def hex2ulong_go (v : Nat) : List Nat → Nat
  | [] => v
  | c :: cs =>
    let v := (v <<< 4) % U64
    if 48 ≤ c ∧ c ≤ 57 then hex2ulong_go ((v + (c - 48)) % U64) cs
    else if 65 ≤ c ∧ c ≤ 70 then hex2ulong_go ((v + (10 + (c - 65))) % U64) cs
    else if 97 ≤ c ∧ c ≤ 102 then hex2ulong_go ((v + (10 + (c - 97))) % U64) cs
    else 0

/-- `hex2ulong(code, len)`. -/
def hex2ulong (code : List Nat) : Nat := hex2ulong_go 0 code

/-- `RFStationData` (OpenSprinkler.h): three ASCII fields
`on[6], off[6], timing[4]`. -/
structure RFStationData where
  onCode : List Nat
  offCode : List Nat
  timing : List Nat
  deriving Repr, DecidableEq

/-- `parse_rfstation_code` (OpenSprinkler.cpp lines 559-576): parse the
three hex fields, returning 0 as soon as one parses to 0; `*on` and
`*off` are written only after their field parses nonzero, so the model
threads the caller's (indeterminate) initial values `on0`, `off0` for
the unassigned cases.  Result: `(returned value, on, off)`. -/
def parse_rfstation_code (d : RFStationData) (on0 off0 : Nat) : Nat × Nat × Nat :=
  let v1 := hex2ulong d.onCode
  if v1 = 0 then (0, on0, off0)
  else
    let v2 := hex2ulong d.offCode
    if v2 = 0 then (0, v1, off0)
    else (hex2ulong d.timing, v1, v2)

/-- `send_rfsignal(code, len)` (OpenSprinkler.cpp lines 797-820) as the
list of `(high, low)` pulse durations written to the RF transmitter pin:
15 repetitions of the 24 code bits (bit 23 first; a 1-bit is
`(3len, len)`, a 0-bit `(len, 3len)`) each followed by a sync pulse
`(len, 31len)`. -/
def send_rfsignal (code len : Nat) : List (Nat × Nat) :=
  let len3 := (len * 3) % U64
  let len31 := (len * 31) % U64
  (List.replicate 15
    (((List.range 24).map (fun k =>
      if (code >>> (23 - k)) &&& 1 = 1 then (len3, len) else (len, len3)))
      ++ [(len, len31)])).flatten

/-- `switch_rfstation(data, turnon)` (OpenSprinkler.cpp lines 827-836)
as the pulse list it transmits: parse the station data and send the
selected code with the parsed timing (the `uint16_t length` cast
truncates modulo 65536); the parse result is not checked. -/
def switch_rfstation (d : RFStationData) (on0 off0 : Nat) (turnon : Bool) :
    List (Nat × Nat) :=
  let p := parse_rfstation_code d on0 off0
  send_rfsignal (if turnon then p.2.1 else p.2.2) (p.1 % 65536)

/-- With timing length 0 every pulse degenerates to `(0, 0)` no matter
what code value is sent. -/
theorem send_rfsignal_len_zero (code : Nat) :
    send_rfsignal code 0 = List.replicate 375 (0, 0) := by
  unfold send_rfsignal
  simp only [Nat.zero_mul, Nat.zero_mod, ite_self]
  decide

/-- The claim's reading of an RF switch with malformed special data: no
pulse at all on the transmitter pin.  (Second definition, following the
spec's words, for comparison with the source's `switch_rfstation`.) -/
def claim_switch_rfstation_silent : List (Nat × Nat) := []

/-- C4 as stated is false: for RF data `on = "000001"`, `off = "000002"`,
`timing = "0000"` the parse fails (returns 0), yet the switch still
drives the transmitter pin with 375 pulse pairs instead of staying
silent. -/
theorem c4_rf_cex :
    (parse_rfstation_code ⟨[48, 48, 48, 48, 48, 49], [48, 48, 48, 48, 48, 50],
        [48, 48, 48, 48]⟩ 0 0).1 = 0 ∧
    (switch_rfstation ⟨[48, 48, 48, 48, 48, 49], [48, 48, 48, 48, 48, 50],
        [48, 48, 48, 48]⟩ 0 0 true).length = 375 ∧
    switch_rfstation ⟨[48, 48, 48, 48, 48, 49], [48, 48, 48, 48, 48, 50],
        [48, 48, 48, 48]⟩ 0 0 true ≠ claim_switch_rfstation_silent := by
  refine ⟨by decide, by decide, by decide⟩

/-! ## Claim C5: flow_poll pulse accounting (main.cpp lines 71-103) -/

/-- The flow-sensor state kept in the globals of main.cpp. -/
structure FlowState where
  flow_begin : Nat
  flow_start : Nat
  flow_stop : Nat
  flow_gallons : Nat
  flow_count : Nat
  deriving Repr, DecidableEq

/-- The zero-initialised globals at program start. -/
def flow_zero : FlowState := ⟨0, 0, 0, 0, 0⟩

/-- One recorded pulse in `flow_poll` (main.cpp lines 80-101), i.e. the
body executed on a raw high→low transition at millisecond time `curr`:
increment `flow_count`; on `flow_start == 0` reset `flow_gallons` and
latch `flow_start = curr`; within 90 s of `flow_start` keep
`flow_gallons = 0`, afterwards latch `flow_begin = curr` exactly when
`flow_gallons == 1`; finally record `flow_stop = curr` and increment
`flow_gallons`. -/
def flow_poll_pulse (s : FlowState) (curr : Nat) : FlowState :=
  let s := { s with flow_count := (s.flow_count + 1) % U64 }
  let s := if s.flow_start = 0 then { s with flow_gallons := 0, flow_start := curr } else s
  let s :=
    if usub curr s.flow_start < 90000 then { s with flow_gallons := 0 }
    else if s.flow_gallons = 1 then { s with flow_begin := curr } else s
  { s with flow_stop := curr, flow_gallons := (s.flow_gallons + 1) % U64 }

/-- A sequence of recorded pulses starting from the boot state. -/
def flow_trace (ts : List Nat) : FlowState := ts.foldl flow_poll_pulse flow_zero

/-- The last-rate computation of `turn_off_station` (main.cpp lines
714-725), as an exact rational: `60000 / ((flow_stop − flow_begin) /
(flow_gallons − 1))` when more than one gallon was counted (inner
division in `unsigned long`), 0 otherwise.  The code stores the result
in a `float`; the value this development proves about is exactly 0, so
no rounding is involved. -/
def flow_last_gpm (s : FlowState) : ℚ :=
  if 1 < s.flow_gallons then
    if s.flow_stop ≤ s.flow_begin then 0
    else (60000 : ℚ) / ((usub s.flow_stop s.flow_begin / (s.flow_gallons - 1) : Nat) : ℚ)
  else 0

/-- C5 as stated is false: after pulses at 0, 91000, 92000, 93000 ms the
state is `flow_begin = 0`, `flow_gallons = 1` — not `flow_begin = t3 =
92000`, `flow_gallons = 4` — because the first pulse at time 0 leaves
`flow_start` at its 0 sentinel, so the second pulse restarts the 90 s
window. -/
theorem c5_flow_cex :
    flow_trace [0, 91000, 92000, 93000] =
      ⟨0, 91000, 93000, 1, 4⟩ ∧
    ¬((flow_trace [0, 91000, 92000, 93000]).flow_gallons = 4 ∧
      (flow_trace [0, 91000, 92000, 93000]).flow_begin = 92000 ∧
      flow_last_gpm (flow_trace [0, 91000, 92000, 93000]) = 180) := by
  refine ⟨by decide, ?_⟩
  intro ⟨h4, _, _⟩
  have : (flow_trace [0, 91000, 92000, 93000]).flow_gallons = 1 := by decide
  omega

/-- C5 (amended): after high→low pulses recorded at millisecond times
0, 91000, 92000, 93000 with no intervening `turn_on_station`, the flow
state is `flow_count = 4`, `flow_begin = 0` (never latched, since the
first pulse at time 0 leaves `flow_start` looking unset and every later
pulse falls within 90 s of the restarted window), `flow_stop = 93000`,
`flow_gallons = 1`, and the next full-queue drain computes
`last_gpm = 0`. -/
theorem c5_flow_amended :
    (flow_trace [0, 91000, 92000, 93000]).flow_count = 4 ∧
    (flow_trace [0, 91000, 92000, 93000]).flow_begin = 0 ∧
    (flow_trace [0, 91000, 92000, 93000]).flow_stop = 93000 ∧
    (flow_trace [0, 91000, 92000, 93000]).flow_gallons = 1 ∧
    flow_last_gpm (flow_trace [0, 91000, 92000, 93000]) = 0 := by
  refine ⟨by decide, by decide, by decide, by decide, ?_⟩
  have h : (flow_trace [0, 91000, 92000, 93000]).flow_gallons = 1 := by decide
  unfold flow_last_gpm
  rw [h]
  norm_num

/-! ## Claim C7: water_time_resolve -/

/-- C7: `water_time_resolve(65534)` returns `(sunset_time − sunrise_time)·60`
seconds and `water_time_resolve(65535)` returns
`(sunrise_time + 1440 − sunset_time)·60` seconds, computed from the cached
non-volatile sunrise/sunset minute values; every other (16-bit) input `v`
is returned unchanged.  Stated for sunrise/sunset minute values in their
documented range `[0, 1439]` with sunrise not after sunset. -/
theorem c7_water_time_resolve (sunrise sunset : Nat)
    (h1 : sunrise ≤ sunset) (h2 : sunset ≤ 1439) :
    water_time_resolve sunrise sunset 65534 = (sunset - sunrise) * 60 ∧
    water_time_resolve sunrise sunset 65535 = (sunrise + 1440 - sunset) * 60 ∧
    ∀ v : Nat, v < 65534 → water_time_resolve sunrise sunset v = v := by
  refine ⟨?_, ?_, ?_⟩
  · show ((((sunset : Int) - (sunrise : Int)) * 60) % (U64 : Int)).toNat = _
    rw [Int.emod_eq_of_lt (by omega)
      (by simp only [U64]; omega)]
    omega
  · show ((((sunrise : Int) + 1440 - (sunset : Int)) * 60) % (U64 : Int)).toNat = _
    rw [Int.emod_eq_of_lt (by omega)
      (by simp only [U64]; omega)]
    omega
  · intro v hv
    unfold water_time_resolve
    rw [if_neg (by omega), if_neg (by omega)]

/-- Witness for C7 at sunrise 360 (06:00), sunset 1080 (18:00). -/
theorem c7_water_time_resolve_witness :
    water_time_resolve 360 1080 65534 = 43200 ∧
    water_time_resolve 360 1080 65535 = 43200 ∧
    water_time_resolve 360 1080 600 = 600 := by
  obtain ⟨h1, h2, h3⟩ := c7_water_time_resolve 360 1080 (by decide) (by decide)
  exact ⟨h1, h2, h3 600 (by decide)⟩

/-! ## Claim C8: encode/decode round trips -/

/-- C8: encoding after decoding is the identity on every byte in
`[0, 240]`, and decoding after encoding restores every multiple of 5 in
`[−600, 600]`. -/
theorem c8_water_time_roundtrip :
    (∀ x : Nat, x < 241 →
      water_time_encode_signed (water_time_decode_signed x) = x) ∧
    (∀ v : Int, -600 ≤ v → v ≤ 600 → 5 ∣ v →
      water_time_decode_signed (water_time_encode_signed v) = v) := by
  constructor
  · decide
  · intro v hlo hhi hdvd
    obtain ⟨m, rfl⟩ := hdvd
    have hmlo : -120 ≤ m := by omega
    have hmhi : m ≤ 120 := by omega
    simp only [water_time_encode_signed]
    rw [if_neg (by omega), if_neg (by omega)]
    have h5 : (5 * m + 600).toNat = 5 * (m + 120).toNat := by omega
    rw [h5, Nat.mul_div_cancel_left _ (by norm_num)]
    unfold water_time_decode_signed
    have hmin : min (m + 120).toNat 240 = (m + 120).toNat := by omega
    rw [hmin]
    omega

/-- Witness for C8 at byte 7 and at value −45. -/
theorem c8_water_time_roundtrip_witness :
    water_time_encode_signed (water_time_decode_signed 7) = 7 ∧
    water_time_decode_signed (water_time_encode_signed (-45)) = -45 :=
  ⟨c8_water_time_roundtrip.1 7 (by decide),
   c8_water_time_roundtrip.2 (-45) (by decide) (by decide) (by decide)⟩

end OS

namespace OS

/-! ## Claim C9: manual_start_program entries and dynamic events -/

/-- `SENSOR_TYPE_RAIN` (defines.h). -/
def SENSOR_TYPE_RAIN : Nat := 1

/-- `SENSOR_TYPE_SOIL` (defines.h). -/
def SENSOR_TYPE_SOIL : Nat := 3

/-- Modelled from the spec: `ProgramData::enqueue` lives in program
files that are not under src/; the spec's runtime queue API is
"`enqueue(e) → ref | nil`: appends; `nil` if full", with capacity at
least MAX_STATIONS. -/
def enqueue (cap : Nat) (Q : List RuntimeQueueStruct) (e : RuntimeQueueStruct) :
    List RuntimeQueueStruct :=
  if Q.length < cap then Q ++ [e] else Q

/-- The per-station body of the `manual_start_program` loop (main.cpp
lines 915-943): skip masters; duration is 2 s for pid 255,
`water_time_resolve` of the program slot for 0 < pid < 255, 60 s for
pid 0; scale by the water percentage when `uwt` (in `unsigned long`
arithmetic); enqueue `{st = 0, dur, sid, pid = 254}` when the duration
is positive and the station is not disabled. -/
def manual_start_step (mas mas2 wp : Nat) (attrib_dis : Nat → Nat)
    (sunrise sunset : Nat) (progDur : Nat → Nat) (pid : Nat) (uwt : Bool)
    (cap : Nat) (Q : List RuntimeQueueStruct) (sid : Nat) :
    List RuntimeQueueStruct :=
  if mas = sid + 1 ∨ mas2 = sid + 1 then Q
  else
    let dur := if pid = 255 then 2
      else if 0 < pid then water_time_resolve sunrise sunset (progDur sid)
      else 60
    let dur := if uwt then dur * wp % U64 / 100 else dur
    if 0 < dur ∧ ¬attribGet attrib_dis sid then enqueue cap Q ⟨0, dur, sid, 254⟩
    else Q

/-- `manual_start_program(pid, uwt)` (main.cpp lines 904-948) as the
runtime queue it leaves behind: the call first empties the queue
(`reset_all_stations_immediate`), then runs the loop body for each
station below `nstations`. -/
def manual_start_program (nstations mas mas2 wp : Nat) (attrib_dis : Nat → Nat)
    (sunrise sunset : Nat) (progDur : Nat → Nat) (pid : Nat) (uwt : Bool)
    (cap : Nat) : List RuntimeQueueStruct :=
  (List.range nstations).foldl
    (manual_start_step mas mas2 wp attrib_dis sunrise sunset progDur pid uwt cap) []

/-- `process_dynamic_events(curr_time)` (main.cpp lines 756-806) as the
list of station ids handed to `turn_off_station`: `sn1`/`sn2` are set
when the sensor type is rain or soil and the sensor is active; the loop
over boards and bits visits `sid = bid*8 + s`, skips masters, skips
stations whose `station_qid` is 255, skips queue elements with
`pid >= 99`, and otherwise turns the station off when the controller is
disabled, rain delay applies, or an active binary sensor applies (each
subject to the per-station ignore bits).  A `station_qid` value that is
neither 255 nor a queue index makes the C code read out of bounds; the
model yields no turn-off there, and the theorem below assumes a
well-formed map. -/
def process_dynamic_events_offs (s1type s2type : Nat) (s1active s2active rd en : Bool)
    (nboards mas mas2 : Nat) (attrib_igs attrib_igs2 attrib_igrd : Nat → Nat)
    (station_qid : Nat → Nat) (Q : List RuntimeQueueStruct) : List Nat :=
  let sn1 := (s1type == SENSOR_TYPE_RAIN || s1type == SENSOR_TYPE_SOIL) && s1active
  let sn2 := (s2type == SENSOR_TYPE_RAIN || s2type == SENSOR_TYPE_SOIL) && s2active
  (List.range (nboards * 8)).filter (fun sid =>
    if mas = sid + 1 then false
    else if mas2 = sid + 1 then false
    else if station_qid sid = 255 then false
    else
      match Q.get? (station_qid sid) with
      | none => false
      | some q =>
        if 99 ≤ q.pid then false
        else !en || (rd && !attribGet attrib_igrd sid)
          || (sn1 && !attribGet attrib_igs sid)
          || (sn2 && !attribGet attrib_igs2 sid))

/-- Every element of the queue built by the manual-start loop carries
program id 254. -/
theorem manual_start_fold_pid254 (mas mas2 wp : Nat) (attrib_dis : Nat → Nat)
    (sunrise sunset : Nat) (progDur : Nat → Nat) (pid : Nat) (uwt : Bool)
    (cap : Nat) :
    ∀ (l : List Nat) (init : List RuntimeQueueStruct),
      (∀ e ∈ init, e.pid = 254) →
      ∀ e ∈ l.foldl
        (manual_start_step mas mas2 wp attrib_dis sunrise sunset progDur pid uwt cap)
        init, e.pid = 254
  | [], _, h => h
  | sid :: rest, init, h => by
    rw [List.foldl_cons]
    refine manual_start_fold_pid254 mas mas2 wp attrib_dis sunrise sunset progDur
      pid uwt cap rest _ ?_
    intro e he
    unfold manual_start_step at he
    by_cases h1 : mas = sid + 1 ∨ mas2 = sid + 1
    · rw [if_pos h1] at he
      exact h e he
    · rw [if_neg h1] at he
      set dur := if uwt then
          (if pid = 255 then 2
            else if 0 < pid then water_time_resolve sunrise sunset (progDur sid)
            else 60) * wp % U64 / 100
        else if pid = 255 then 2
          else if 0 < pid then water_time_resolve sunrise sunset (progDur sid)
          else 60 with hdur
      by_cases h2 : 0 < dur ∧ ¬attribGet attrib_dis sid
      · rw [if_pos h2] at he
        unfold enqueue at he
        by_cases h3 : init.length < cap
        · rw [if_pos h3] at he
          rcases List.mem_append.mp he with h4 | h4
          · exact h e h4
          · rw [List.mem_singleton.mp h4]
        · rw [if_neg h3] at he
          exact h e he
      · rw [if_neg h2] at he
        exact h e he

/-- C9: every runtime-queue entry created by `manual_start_program` —
whatever the pid (0 and 255 test programs included) — carries
program_id 254, and since `process_dynamic_events` skips every queue
element with program id ≥ 99, a dynamic-events pass over that queue
(with a station_qid map that is 255 or a valid index everywhere) turns
no station off, for any disable/rain-delay/sensor configuration. -/
theorem c9_manual_pid_isolation (nstations mas mas2 wp : Nat)
    (attrib_dis : Nat → Nat) (sunrise sunset : Nat) (progDur : Nat → Nat)
    (pid : Nat) (uwt : Bool) (cap : Nat)
    (s1type s2type : Nat) (s1active s2active rd en : Bool)
    (nboards : Nat) (attrib_igs attrib_igs2 attrib_igrd : Nat → Nat)
    (station_qid : Nat → Nat)
    (hq : ∀ sid, station_qid sid = 255 ∨
      station_qid sid < (manual_start_program nstations mas mas2 wp attrib_dis
        sunrise sunset progDur pid uwt cap).length) :
    (∀ e ∈ manual_start_program nstations mas mas2 wp attrib_dis sunrise sunset
        progDur pid uwt cap, e.pid = 254) ∧
    process_dynamic_events_offs s1type s2type s1active s2active rd en
      nboards mas mas2 attrib_igs attrib_igs2 attrib_igrd station_qid
      (manual_start_program nstations mas mas2 wp attrib_dis sunrise sunset
        progDur pid uwt cap) = [] := by
  have hpid : ∀ e ∈ manual_start_program nstations mas mas2 wp attrib_dis
      sunrise sunset progDur pid uwt cap, e.pid = 254 :=
    manual_start_fold_pid254 mas mas2 wp attrib_dis sunrise sunset progDur pid uwt
      cap (List.range nstations) [] (by intro e he; cases he)
  refine ⟨hpid, ?_⟩
  unfold process_dynamic_events_offs
  rw [List.filter_eq_nil_iff]
  intro sid _
  by_cases h1 : mas = sid + 1
  · simp [h1]
  · by_cases h2 : mas2 = sid + 1
    · simp [h1, h2]
    · by_cases h3 : station_qid sid = 255
      · simp [h1, h2, h3]
      · rcases hq sid with h4 | h4
        · exact absurd h4 h3
        · have hqget : (manual_start_program nstations mas mas2 wp attrib_dis
              sunrise sunset progDur pid uwt cap)[station_qid sid]? =
              some ((manual_start_program nstations mas mas2 wp attrib_dis
                sunrise sunset progDur pid uwt cap).get ⟨station_qid sid, h4⟩) :=
            List.getElem?_eq_getElem h4
          have h254 : ((manual_start_program nstations mas mas2 wp attrib_dis
              sunrise sunset progDur pid uwt cap).get ⟨station_qid sid, h4⟩).pid =
              254 := hpid _ (List.get_mem _ _ h4)
          simp only [List.get_eq_getElem] at h254
          simp [h1, h2, h3, hqget]
          intro hlt
          omega


/-- Witness for C9: eight stations, program 1 with 600-second slots, a
rain-type sensor-1 active, rain delay on and the controller disabled,
with no station owned by a queue element. -/
theorem c9_manual_pid_isolation_witness :
    (∀ e ∈ manual_start_program 8 0 0 100 (fun _ => 0) 360 1080 (fun _ => 600) 1
        false 200, e.pid = 254) ∧
    process_dynamic_events_offs 1 0 true false true false 1 0 0 (fun _ => 0)
      (fun _ => 0) (fun _ => 0) (fun _ => 255)
      (manual_start_program 8 0 0 100 (fun _ => 0) 360 1080 (fun _ => 600) 1
        false 200) = [] :=
  c9_manual_pid_isolation 8 0 0 100 (fun _ => 0) 360 1080 (fun _ => 600) 1 false
    200 1 0 true false true false 1 (fun _ => 0) (fun _ => 0) (fun _ => 0)
    (fun _ => 255) (fun _ => Or.inl rfl)

end OS

namespace OS

/-! ## Claim C10: sopt_save (OpenSprinkler.cpp lines 1134-1149) -/

/-- `NUM_SOPTS` (defines.h): 9 string options. -/
def NUM_SOPTS : Nat := 9

/-- Value of a stored byte after assignment to a C `char` (signed on
this target): bytes ≥ 128 become negative. -/
def schar (b : Nat) : Int := if b < 128 then (b : Int) else (b : Int) - 256

/-- `fgetc` into a `char`: the byte at the position, or EOF (−1) past
the end of the file. -/
def getc (f : List Nat) (p : Nat) : Int :=
  match f.get? p with
  | some b => schar b
  | none => -1

/-- The loop of `file_cmp_block` (utils.cpp lines 285-302): advance
while `*buf` is nonzero and agrees with the file byte `c`; on exit
return 0 iff `*buf == c`.  `buf` holds the bytes of the C string before
its terminating NUL. -/
def cmp_go (f : List Nat) : List Nat → Int → Nat → Nat
  | [], c, _ => if c = 0 then 0 else 1
  | b :: bs, c, p =>
    if schar b ≠ 0 ∧ c = schar b then cmp_go f bs (getc f (p + 1)) (p + 1)
    else if schar b = c then 0 else 1

/-- `file_cmp_block(fn, buf, pos)`: 0 when the NUL-terminated `buf`
matches the file contents starting at `pos`, 1 otherwise (a missing
file also yields 1; the model takes the file as present). -/
def file_cmp_block (f : List Nat) (buf : List Nat) (pos : Nat) : Nat :=
  cmp_go f buf (getc f pos) pos

/-- `file_write_block(fn, buf, pos, len)`: overwrite `data.length`
bytes of the file at `pos`. -/
def file_write_block (f : List Nat) (pos : Nat) (data : List Nat) : List Nat :=
  f.take pos ++ data ++ f.drop (pos + data.length)

/-- `sopt_save(oid, buf)` (OpenSprinkler.cpp lines 1134-1149): skip the
write and return false when `file_cmp_block` reports a match at the
option's slot; otherwise write `MAX_SOPTS_SIZE` bytes when
`strlen(buf) ≥ MAX_SOPTS_SIZE`, or `strlen(buf)+1` bytes (the
terminating NUL included) otherwise, and return true. -/
def sopt_save (f : List Nat) (oid : Nat) (buf : List Nat) : Bool × List Nat :=
  if file_cmp_block f buf (MAX_SOPTS_SIZE * oid) = 0 then (false, f)
  else if MAX_SOPTS_SIZE ≤ buf.length then
    (true, file_write_block f (MAX_SOPTS_SIZE * oid) (buf.take MAX_SOPTS_SIZE))
  else
    (true, file_write_block f (MAX_SOPTS_SIZE * oid) (buf ++ [0]))

/-- The stored string of option `oid`, as `sopt_load` reads it: the
bytes of the 160-byte slot up to the first NUL (all 160 when none). -/
def sopt_stored (f : List Nat) (oid : Nat) : List Nat :=
  ((f.drop (MAX_SOPTS_SIZE * oid)).take MAX_SOPTS_SIZE).takeWhile (fun b => b != 0)

/-- `List.getD` through `get?`. -/
theorem getD_eq_get? (l : List Nat) (n : Nat) : l.getD n 0 = (l.get? n).getD 0 := rfl

/-- Reading inside a slot reads the file. -/
theorem slot_getD (f : List Nat) (pos n i : Nat) (hi : i < n) :
    ((f.drop pos).take n).getD i 0 = f.getD (pos + i) 0 := by
  rw [getD_eq_get?, getD_eq_get?, List.get?_take hi, List.get?_drop]

/-- Shape of `file_write_block`: length preserved, bytes before and
after the written range unchanged, written range holds `data`. -/
theorem file_write_block_spec (f data : List Nat) (pos : Nat)
    (hle : pos + data.length ≤ f.length) :
    (file_write_block f pos data).length = f.length ∧
    (∀ i, i < pos → (file_write_block f pos data).getD i 0 = f.getD i 0) ∧
    (∀ i, pos + data.length ≤ i →
      (file_write_block f pos data).getD i 0 = f.getD i 0) ∧
    (∀ i, i < data.length →
      (file_write_block f pos data).getD (pos + i) 0 = data.getD i 0) := by
  have hpos : pos ≤ f.length := by omega
  have htl : (f.take pos).length = pos := by
    rw [List.length_take]; omega
  refine ⟨?_, ?_, ?_, ?_⟩
  · unfold file_write_block
    rw [List.length_append, List.length_append, htl, List.length_drop]
    omega
  · intro i hi
    unfold file_write_block
    rw [getD_eq_get?, getD_eq_get?, List.append_assoc,
      List.get?_append (by omega : i < (f.take pos).length),
      List.get?_take hi]
  · intro i hi
    unfold file_write_block
    rw [getD_eq_get?, getD_eq_get?, List.append_assoc,
      List.get?_append_right (by omega : (f.take pos).length ≤ i),
      List.get?_append_right (by rw [htl]; omega : data.length ≤ i - (f.take pos).length),
      List.get?_drop, htl]
    have hidx : pos + data.length + (i - pos - data.length) = i := by omega
    rw [hidx]
  · intro i hi
    unfold file_write_block
    rw [getD_eq_get?, getD_eq_get?, List.append_assoc,
      List.get?_append_right (by omega : (f.take pos).length ≤ pos + i),
      List.get?_append (by rw [htl]; omega : pos + i - (f.take pos).length < data.length),
      htl]
    have hidx : pos + i - pos = i := by omega
    rw [hidx]


/-- Bytes of an ASCII file are below 128. -/
theorem getD_lt (f : List Nat) (hf : ∀ b ∈ f, b < 128) (p : Nat)
    (hp : p < f.length) : f.getD p 0 < 128 := by
  rw [getD_eq_get?]
  cases hg : f.get? p with
  | none =>
    have := List.get?_eq_none.mp hg
    omega
  | some b =>
    exact hf b (List.get?_mem hg)

/-- In range and below 128, `getc` is the byte itself. -/
theorem getc_in (f : List Nat) (p : Nat) (hp : p < f.length)
    (hb : f.getD p 0 < 128) : getc f p = (f.getD p 0 : Int) := by
  unfold getc
  cases hg : f.get? p with
  | none =>
    have := List.get?_eq_none.mp hg
    omega
  | some b =>
    have hbb : b < 128 := by
      rw [getD_eq_get?, hg] at hb
      exact hb
    rw [getD_eq_get?, hg]
    show schar b = ((b : Nat) : Int)
    unfold schar
    rw [if_pos hbb]

/-- The comparison loop returns 0 exactly when the file bytes starting
at `p` agree with `buf` and the byte after them is NUL (for a NUL-free
ASCII `buf` whose compared range lies inside an ASCII file). -/
theorem cmp_go_zero_iff (f : List Nat) (hf : ∀ b ∈ f, b < 128) :
    ∀ (buf : List Nat) (p : Nat), (∀ b ∈ buf, 0 < b ∧ b < 128) →
      p + buf.length < f.length →
      (cmp_go f buf (getc f p) p = 0 ↔
        ((∀ i, i < buf.length → f.getD (p + i) 0 = buf.getD i 0) ∧
          f.getD (p + buf.length) 0 = 0))
  | [], p, _, hlen => by
    rw [cmp_go]
    have hp : p < f.length := by simpa using hlen
    rw [getc_in f p hp (getD_lt f hf p hp)]
    constructor
    · intro h
      refine ⟨fun i hi => absurd hi (by simp), ?_⟩
      by_cases hz : ((f.getD p 0 : Nat) : Int) = 0
      · have : f.getD p 0 = 0 := by exact_mod_cast hz
        simpa using this
      · rw [if_neg hz] at h
        exact absurd h one_ne_zero
    · intro h
      have h2 : f.getD p 0 = 0 := by simpa using h.2
      rw [h2]
      simp
  | b :: bs, p, hbuf, hlen => by
    obtain ⟨hb0, hb128⟩ := hbuf b (List.mem_cons_self b bs)
    have hlen1 : p + bs.length + 1 < f.length := by
      simp only [List.length_cons] at hlen
      omega
    have hp : p < f.length := by omega
    rw [cmp_go, getc_in f p hp (getD_lt f hf p hp)]
    have hsb : schar b = (b : Int) := by
      unfold schar
      rw [if_pos hb128]
    by_cases heq : f.getD p 0 = b
    · rw [if_pos ⟨by rw [hsb]; exact_mod_cast hb0.ne', by rw [hsb]; exact_mod_cast heq⟩,
        cmp_go_zero_iff f hf bs (p + 1)
          (fun x hx => hbuf x (List.mem_cons_of_mem b hx)) (by omega)]
      constructor
      · intro h1
        refine ⟨?_, ?_⟩
        · intro i hi
          match i with
          | 0 =>
            simp only [Nat.add_zero, List.getD_cons_zero]
            exact heq
          | j + 1 =>
            rw [show p + (j + 1) = p + 1 + j from by omega]
            have := h1.1 j (by simp only [List.length_cons] at hi; omega)
            simp only [List.getD_cons_succ]
            exact this
        · rw [show p + (b :: bs).length = p + 1 + bs.length from by
            simp only [List.length_cons]; omega]
          exact h1.2
      · intro h1
        refine ⟨?_, ?_⟩
        · intro i hi
          have := h1.1 (i + 1) (by simp only [List.length_cons]; omega)
          rw [show p + 1 + i = p + (i + 1) from by omega]
          simp only [List.getD_cons_succ] at this
          exact this
        · rw [show p + 1 + bs.length = p + (b :: bs).length from by
            simp only [List.length_cons]; omega]
          exact h1.2
    · rw [if_neg (by
        rw [hsb]
        rintro ⟨-, hc⟩
        exact heq (by exact_mod_cast hc)),
        if_neg (by
          rw [hsb]
          intro hc
          exact heq (by exact_mod_cast hc.symm))]
      constructor
      · intro h
        exact absurd h one_ne_zero
      · intro h1
        have := h1.1 0 (by simp)
        simp only [Nat.add_zero, List.getD_cons_zero] at this
        exact absurd this heq

/-- A NUL-free list `buf` is the `takeWhile (· ≠ 0)` of a longer list
`l` exactly when `l` starts with `buf` followed by a NUL. -/
theorem takeWhile_eq_iff :
    ∀ (buf l : List Nat), (∀ b ∈ buf, 0 < b) → buf.length < l.length →
      (l.takeWhile (fun b => b != 0) = buf ↔
        ((∀ i, i < buf.length → l.getD i 0 = buf.getD i 0) ∧
          l.getD buf.length 0 = 0))
  | buf, [], _, hlen => by simp at hlen
  | [], x :: xs, _, _ => by
    rw [List.takeWhile_cons]
    by_cases hx : x = 0
    · simp [hx]
    · simp [hx]
  | b :: bs, x :: xs, hbuf, hlen => by
    have hb0 := hbuf b (List.mem_cons_self b bs)
    have hlen1 : bs.length < xs.length := by
      simp only [List.length_cons] at hlen
      omega
    rw [List.takeWhile_cons]
    by_cases hx : x = 0
    · simp only [hx]
      constructor
      · intro h
        simp at h
      · intro h1
        have := h1.1 0 (by simp)
        simp only [List.getD_cons_zero] at this
        omega
    · rw [if_pos (by simp [hx])]
      constructor
      · intro h
        have hxb : x = b := (List.cons.injEq _ _ _ _).mp h |>.1
        have htw : xs.takeWhile (fun b => b != 0) = bs :=
          (List.cons.injEq _ _ _ _).mp h |>.2
        obtain ⟨h1, h2⟩ := (takeWhile_eq_iff bs xs
          (fun y hy => hbuf y (List.mem_cons_of_mem b hy)) hlen1).mp htw
        refine ⟨?_, ?_⟩
        · intro i hi
          match i with
          | 0 => simpa using hxb
          | j + 1 =>
            have := h1 j (by simp only [List.length_cons] at hi; omega)
            simpa using this
        · simpa using h2
      · intro h1
        have hxb : x = b := by
          have := h1.1 0 (by simp)
          simpa using this
        have h2 : xs.getD bs.length 0 = 0 := by
          have := h1.2
          simpa using this
        have h1s : ∀ i, i < bs.length → xs.getD i 0 = bs.getD i 0 := by
          intro i hi
          have := h1.1 (i + 1) (by simp only [List.length_cons]; omega)
          simpa using this
        rw [hxb, (takeWhile_eq_iff bs xs
          (fun y hy => hbuf y (List.mem_cons_of_mem b hy)) hlen1).mpr ⟨h1s, h2⟩]


/-- C10 (amended): for strings that fit their slot
(`strlen(buf) < 160`), `sopt_save` is the claimed conditional write:
when the stored string of `oid` equals `buf` it returns false and
leaves the file untouched; otherwise it returns true and writes `buf`
with its terminating NUL into the option's 160-byte slot, leaving every
byte before the slot and after it unchanged.  (Stated for ASCII files
and NUL-free ASCII strings, with the string-options file at its
`NUM_SOPTS × 160` size.) -/
theorem c10_sopt_save (f buf : List Nat) (oid : Nat)
    (hbuf : ∀ b ∈ buf, 0 < b ∧ b < 128)
    (hf : ∀ b ∈ f, b < 128)
    (hlen : buf.length < MAX_SOPTS_SIZE)
    (hoid : oid < NUM_SOPTS)
    (hflen : f.length = NUM_SOPTS * MAX_SOPTS_SIZE) :
    (sopt_stored f oid = buf → sopt_save f oid buf = (false, f)) ∧
    (sopt_stored f oid ≠ buf →
      (sopt_save f oid buf).1 = true ∧
      sopt_stored (sopt_save f oid buf).2 oid = buf ∧
      (sopt_save f oid buf).2.length = f.length ∧
      ∀ i, i < MAX_SOPTS_SIZE * oid ∨ MAX_SOPTS_SIZE * (oid + 1) ≤ i →
        (sopt_save f oid buf).2.getD i 0 = f.getD i 0) := by
  have e160 : MAX_SOPTS_SIZE = 160 := rfl
  have e9 : NUM_SOPTS = 9 := rfl
  rw [e160] at hlen
  rw [e9, e160] at hflen
  rw [e9] at hoid
  set pos := MAX_SOPTS_SIZE * oid with hpos
  have hposv : pos = 160 * oid := by rw [hpos, e160]
  have hposle : pos + 160 ≤ f.length := by rw [hposv]; omega
  have hcmplen : pos + buf.length < f.length := by omega
  have hslotlen : ((f.drop pos).take 160).length = 160 := by
    rw [List.length_take, List.length_drop]
    omega
  have hstored_iff :
      sopt_stored f oid = buf ↔
      ((∀ i, i < buf.length → f.getD (pos + i) 0 = buf.getD i 0) ∧
        f.getD (pos + buf.length) 0 = 0) := by
    unfold sopt_stored
    rw [← hpos, e160,
      takeWhile_eq_iff buf _ (fun b hb => (hbuf b hb).1) (by rw [hslotlen]; omega)]
    constructor
    · intro h1
      exact ⟨fun i hi => by
          rw [← slot_getD f pos 160 i (by omega)]; exact h1.1 i hi,
        by rw [← slot_getD f pos 160 buf.length (by omega)]; exact h1.2⟩
    · intro h1
      exact ⟨fun i hi => by
          rw [slot_getD f pos 160 i (by omega)]; exact h1.1 i hi,
        by rw [slot_getD f pos 160 buf.length (by omega)]; exact h1.2⟩
  have hcmp_iff : file_cmp_block f buf pos = 0 ↔ sopt_stored f oid = buf := by
    unfold file_cmp_block
    rw [cmp_go_zero_iff f hf buf pos hbuf hcmplen, hstored_iff]
  constructor
  · intro h
    unfold sopt_save
    rw [← hpos, if_pos (hcmp_iff.mpr h)]
  · intro h
    have hcmp : ¬file_cmp_block f buf pos = 0 := fun hc => h (hcmp_iff.mp hc)
    unfold sopt_save
    rw [← hpos, e160, if_neg hcmp, if_neg (by omega : ¬160 ≤ buf.length)]
    obtain ⟨hl, hfr1, hfr2, hdata⟩ := file_write_block_spec f (buf ++ [0]) pos
      (by simp only [List.length_append, List.length_cons, List.length_nil]; omega)
    set g := file_write_block f pos (buf ++ [0]) with hg
    refine ⟨rfl, ?_, hl, ?_⟩
    · unfold sopt_stored
      rw [← hpos, e160,
        takeWhile_eq_iff buf _ (fun b hb => (hbuf b hb).1)
          (by rw [List.length_take, List.length_drop, hl]; omega)]
      refine ⟨?_, ?_⟩
      · intro i hi
        have hid : i < (buf ++ [0]).length := by
          simp only [List.length_append, List.length_cons, List.length_nil]
          omega
        rw [slot_getD g pos 160 i (by omega), hdata i hid,
          getD_eq_get?, getD_eq_get?, List.get?_append hi]
      · have hid : buf.length < (buf ++ [0]).length := by
          simp only [List.length_append, List.length_cons, List.length_nil]
          omega
        rw [slot_getD g pos 160 buf.length (by omega), hdata buf.length hid,
          getD_eq_get?, List.get?_append_right (le_refl _)]
        simp
    · intro i hi
      rcases hi with hi | hi
      · exact hfr1 i hi
      · refine hfr2 i ?_
        simp only [List.length_append, List.length_cons, List.length_nil]
        omega


/-- Setting a masked bit makes the masked test nonzero. -/
theorem or_and_mask (a s : Nat) : (a ||| (1 <<< s)) &&& (1 <<< s) = 1 <<< s := by
  apply Nat.eq_of_testBit_eq
  intro i
  rw [Nat.testBit_and, Nat.testBit_or]
  by_cases h : (1 <<< s).testBit i
  · simp [h]
  · simp [h]

/-- Clearing through the byte complement `255 ^ mask` clears the masked
bit (the mask bit lies below bit 8). -/
theorem and_not_mask (a s : Nat) (hs : s < 8) :
    (a &&& (255 ^^^ (1 <<< s))) &&& (1 <<< s) = 0 := by
  apply Nat.eq_of_testBit_eq
  intro i
  rw [Nat.testBit_and, Nat.testBit_and, Nat.testBit_xor, Nat.zero_testBit]
  by_cases h : i = s
  · subst h
    have h255 : (255 : Nat).testBit i = true := by
      have h2 : (255 : Nat) = 2 ^ 8 - 1 := by norm_num
      rw [h2, Nat.testBit_two_pow_sub_one]
      simp [hs]
    have hm : (1 <<< i).testBit i = true := by
      rw [Nat.one_shiftLeft]
      simp [Nat.testBit_two_pow_self]
    simp [h255, hm]
  · have hm : (1 <<< s).testBit i = false := by
      rw [Nat.one_shiftLeft, Nat.testBit_two_pow]
      exact decide_eq_false (fun hc => h hc.symm)
    simp [hm]

/-- The low three bits of a station index are below 8. -/
theorem sOf_lt (sid : Nat) : sOf sid < 8 :=
  Nat.lt_succ_of_le (Nat.le_of_lt_succ (Nat.lt_succ_of_le (Nat.and_le_right)))

/-- C4 (amended): when any RF field is zero or non-hex
(`parse_rfstation_code` returns 0), the switch still transmits — it
sends the 15 × 25 pulse pairs with zero timing, i.e. 375 degenerate
`(0, 0)` pulses on the RF pin — no failure propagates (the functions
are total), and the in-memory station bit is still flipped by
`set_station_bit` exactly as for any station. -/
theorem c4_rf_invalid (d : RFStationData) (on0 off0 : Nat) (turnon : Bool)
    (h : (parse_rfstation_code d on0 off0).1 = 0) :
    switch_rfstation d on0 off0 turnon = List.replicate 375 (0, 0) ∧
    (∀ (bits : List Nat) (sid : Nat), bidOf sid < bits.length →
      (set_station_bit bits sid 1).1.getD (bidOf sid) 0 &&& (1 <<< sOf sid) ≠ 0 ∧
      (set_station_bit bits sid 0).1.getD (bidOf sid) 0 &&& (1 <<< sOf sid) = 0) := by
  constructor
  · simp only [switch_rfstation]
    rw [h, Nat.zero_mod]
    exact send_rfsignal_len_zero _
  · intro bits sid hlt
    constructor
    · unfold set_station_bit
      by_cases hc : bits.getD (bidOf sid) 0 &&& (1 <<< sOf sid) ≠ 0
      · rw [if_pos (by omega : (1 : Nat) ≠ 0), if_pos hc]
        exact hc
      · rw [if_pos (by omega : (1 : Nat) ≠ 0), if_neg hc]
        have hset : ((bits.set (bidOf sid)
            (bits.getD (bidOf sid) 0 ||| 1 <<< sOf sid)).getD (bidOf sid) 0) =
            bits.getD (bidOf sid) 0 ||| 1 <<< sOf sid := by
          rw [getD_eq_get?, List.get?_eq_getElem?,
            List.getElem?_set_eq_of_lt _ hlt]
          rfl
        rw [hset, or_and_mask]
        have : (0 : Nat) < 1 <<< sOf sid := by
          rw [Nat.one_shiftLeft]
          exact Nat.pos_pow_of_pos _ (by omega)
        omega
    · unfold set_station_bit
      rw [if_neg (by omega : ¬(0 : Nat) ≠ 0)]
      by_cases hc : bits.getD (bidOf sid) 0 &&& (1 <<< sOf sid) = 0
      · rw [if_pos hc]
        exact hc
      · rw [if_neg hc]
        have hset : ((bits.set (bidOf sid)
            (bits.getD (bidOf sid) 0 &&& (255 ^^^ 1 <<< sOf sid))).getD (bidOf sid) 0) =
            bits.getD (bidOf sid) 0 &&& (255 ^^^ 1 <<< sOf sid) := by
          rw [getD_eq_get?, List.get?_eq_getElem?,
            List.getElem?_set_eq_of_lt _ hlt]
          rfl
        rw [hset, and_not_mask _ _ (sOf_lt sid)]

/-- Witness for C4 at the RF data of the counterexample
(`timing = "0000"`). -/
theorem c4_rf_invalid_witness :
    switch_rfstation ⟨[48, 48, 48, 48, 48, 49], [48, 48, 48, 48, 48, 50],
        [48, 48, 48, 48]⟩ 0 0 true = List.replicate 375 (0, 0) ∧
    (∀ (bits : List Nat) (sid : Nat), bidOf sid < bits.length →
      (set_station_bit bits sid 1).1.getD (bidOf sid) 0 &&& (1 <<< sOf sid) ≠ 0 ∧
      (set_station_bit bits sid 0).1.getD (bidOf sid) 0 &&& (1 <<< sOf sid) = 0) :=
  c4_rf_invalid ⟨[48, 48, 48, 48, 48, 49], [48, 48, 48, 48, 48, 50],
    [48, 48, 48, 48]⟩ 0 0 true (by decide)

/-- C10 as stated is false for a string that exactly fills its slot:
with slot 0 holding 160 'A' bytes and the next byte 'B', the stored
string of option 0 equals the 160-'A' string, yet `sopt_save` compares
past the slot (`file_cmp_block` walks to the NUL of `buf`, which is at
offset 160), sees 'B' ≠ NUL, and returns true after rewriting the
slot. -/
theorem c10_sopt_save_cex :
    sopt_stored (List.replicate 160 65 ++ 66 :: List.replicate 1279 0) 0 =
      List.replicate 160 65 ∧
    (sopt_save (List.replicate 160 65 ++ 66 :: List.replicate 1279 0) 0
      (List.replicate 160 65)).1 = true := by
  refine ⟨by decide, by decide⟩

/-- Witness for C10: writing "hi" into slot 2 of an all-zero options
file. -/
theorem c10_sopt_save_witness :
    (sopt_stored (List.replicate 1440 0) 2 = [104, 105] →
      sopt_save (List.replicate 1440 0) 2 [104, 105] =
        (false, List.replicate 1440 0)) ∧
    (sopt_stored (List.replicate 1440 0) 2 ≠ [104, 105] →
      (sopt_save (List.replicate 1440 0) 2 [104, 105]).1 = true ∧
      sopt_stored (sopt_save (List.replicate 1440 0) 2 [104, 105]).2 2 =
        [104, 105] ∧
      (sopt_save (List.replicate 1440 0) 2 [104, 105]).2.length =
        (List.replicate 1440 (0 : Nat)).length ∧
      ∀ i, i < MAX_SOPTS_SIZE * 2 ∨ MAX_SOPTS_SIZE * (2 + 1) ≤ i →
        (sopt_save (List.replicate 1440 0) 2 [104, 105]).2.getD i 0 =
          (List.replicate 1440 (0 : Nat)).getD i 0) :=
  c10_sopt_save (List.replicate 1440 0) [104, 105] 2 (by decide)
    (fun b hb => by rw [List.eq_of_mem_replicate hb]; omega)
    (by decide) (by decide) (by decide)

end OS
